import Mathlib

/-!
Verification of the `heygpt` command-line chat client (`src/main.rs`).

The development shallowly embeds the three behaviours the specification
talks about:

* the streaming response reducer `do_stream_request` (main.rs lines 201-242),
  modelled as a fold `processEvents` over the list of events delivered by the
  `EventSource`;
* the non-streaming handler `do_non_stream_request` (main.rs lines 244-259);
* the interactive session loop `run_interactive` together with the request
  construction of `complete_and_print` (main.rs lines 117-199).

Effects are made explicit: text printed to stdout becomes a trace of printed
chunks, the explicit `es.close()` call on the transport-error path becomes a
boolean field, a Rust `?`-propagated error becomes `Except.error` with a
dedicated constructor, and a Rust panic (`unwrap` on `None` / out-of-bounds
indexing) becomes `Except.error RunError.panicked` — a panic aborts the
process, so no `Message` is ever returned from it either, but the two failure
modes are kept distinguishable.

JSON (de)serialisation is performed by `serde` in the source and is treated
as an external collaborator: the reducer is parameterised by an arbitrary
parse function `String → Option ResponseStreamMessage` (`none` models a
payload that fails to deserialise).  The sampling parameters `temperature`
and `top_p` are `f64` values that the program never inspects, only forwards;
they are modelled by an opaque type parameter `F`.
-/

namespace HeyGpt

/-- Modelled from the spec: the wire shapes live in `model.rs`, which is not
part of the provided sources.  `Message` is one conversation turn with a
`role` and a `content` string (spec section 3 and section 6). -/
structure Message where
  role : String
  content : String
deriving Repr, DecidableEq

/-- `Message::default()`: both fields default to the empty string. -/
def Message.default : Message := ⟨"", ""⟩

/-- Modelled from the spec: a streamed delta fragment
`{role?: string, content?: string}` (spec section 6). -/
structure Delta where
  role : Option String
  content : Option String
deriving Repr, DecidableEq

/-- Modelled from the spec: one element of the `choices` array of a streaming
frame, `{delta: {...}}`. -/
structure StreamChoice where
  delta : Delta
deriving Repr, DecidableEq

/-- Modelled from the spec: the JSON shape of one streaming data frame,
`{choices: [{delta: {role?, content?}}]}`. -/
structure ResponseStreamMessage where
  choices : List StreamChoice
deriving Repr, DecidableEq

/-- Modelled from the spec: one element of the `choices` array of a
non-streaming response body, `{message: {role, content}}`. -/
structure ResponseChoice where
  message : Message
deriving Repr, DecidableEq

/-- Modelled from the spec: the non-streaming response body
`{choices: [{message: {role, content}}]}`. -/
structure ResponseMessage where
  choices : List ResponseChoice
deriving Repr, DecidableEq

/-- One event delivered by the `reqwest_eventsource::EventSource`:
`Ok(Event::Open)`, `Ok(Event::Message(m))` carrying the `data` payload, or
`Err(err)` (transport error). -/
inductive StreamEvent where
  | opened
  | message (data : String)
  | transportError (err : String)
deriving Repr, DecidableEq

/-- How a run of the reducer can fail.  `parseError` is the
`serde_json::from_str(..)?` early return (main.rs line 217); `panicked` is a
Rust panic (`.unwrap()` on `None` at line 218, or the out-of-bounds
`choices[0]` at line 249); `transport` is the `bail!` on an `EventSource`
error (line 234). -/
inductive RunError where
  | parseError
  | panicked
  | transport (err : String)
deriving Repr, DecidableEq

deriving instance DecidableEq for Except

/-- Result of running `do_stream_request`: `printed` is the trace of chunks
written to stdout (each `print!`/`println!` appends one chunk), `closed`
records whether the explicit `es.close()` call on the transport-error path
was executed (the implicit RAII close when the `EventSource` is dropped on
the other exit paths is not modelled), and `result` is the returned
`Result<Message>` (with a panic shown as `RunError.panicked`). -/
structure StreamOutcome where
  printed : List String
  closed : Bool
  result : Except RunError Message
deriving Repr, DecidableEq

/-- Rust `content.starts_with("\n")`: the first character is a newline. -/
def starts_with_newline (s : String) : Bool :=
  match s.data with
  | '\n' :: _ => true
  | _ => false

/-- Rust `str::trim_start`: remove leading whitespace characters.  (Rust
trims Unicode `White_Space`; `Char.isWhitespace` covers the ASCII whitespace
relevant here.) -/
def trim_start (s : String) : String := ⟨s.data.dropWhile Char.isWhitespace⟩

/-- Rust `String::is_empty`. -/
def is_empty (s : String) : Bool := s.data.isEmpty

/-- The leading-whitespace trick of main.rs lines 223-226: if the fragment
starts with a newline while the accumulated content is still empty, all
leading whitespace is removed (Rust `trim_start`). -/
def stripIf (acc c : String) : String :=
  if starts_with_newline c && is_empty acc then trim_start c else c

/-- The event loop of `do_stream_request` (main.rs lines 205-237), folding
over the list of events with the accumulator `full_message` and the stdout
trace.  `parse` abstracts `serde_json::from_str::<ResponseStreamMessage>`. -/
def processEvents (parse : String → Option ResponseStreamMessage) :
    List StreamEvent → Message → List String → StreamOutcome
  | [], acc, out => ⟨out, false, .ok acc⟩
  | .opened :: rest, acc, out => processEvents parse rest acc out
  | .message d :: rest, acc, out =>
    if d = "[DONE]" then ⟨out ++ ["\n"], false, .ok acc⟩
    else
      match parse d with
      | none => ⟨out, false, .error .parseError⟩
      | some m =>
        match m.choices with
        | [] => ⟨out, false, .error .panicked⟩
        | ch :: _ =>
          let acc1 := match ch.delta.role with
            | some r => { acc with role := acc.role ++ r }
            | none => acc
          match ch.delta.content with
          | none => processEvents parse rest acc1 out
          | some c =>
            let c1 := stripIf acc1.content c
            processEvents parse rest
              { acc1 with content := acc1.content ++ c1 } (out ++ [c1])
  | .transportError e :: _, _, out => ⟨out, true, .error (.transport e)⟩

/-- `do_stream_request` (main.rs lines 201-242), starting from
`Message::default()` and an empty stdout trace. -/
def do_stream_request (parse : String → Option ResponseStreamMessage)
    (events : List StreamEvent) : StreamOutcome :=
  processEvents parse events Message.default []

/-- Result of `do_non_stream_request`: the text written to stdout and the
returned `Result<Message>`. -/
structure NonStreamOutcome where
  printed : String
  result : Except RunError Message
deriving Repr, DecidableEq

/-- `do_non_stream_request` (main.rs lines 244-259).  The argument models
`req.send().await?.json().await?`: `none` is a transport/deserialisation
failure propagated by `?`, `some body` the successfully parsed body.
`response.choices[0]` is unguarded indexing, hence a panic when `choices`
is empty. -/
def do_non_stream_request (body : Option ResponseMessage) : NonStreamOutcome :=
  match body with
  | none => ⟨"", .error .parseError⟩
  | some resp =>
    match resp.choices with
    | [] => ⟨"", .error .panicked⟩
    | ch :: _ =>
      let content :=
        if starts_with_newline ch.message.content then trim_start ch.message.content
        else ch.message.content
      ⟨content ++ "\n", .ok ⟨ch.message.role, content⟩⟩

/-- The command-line options read by `clap` (main.rs lines 18-49).  The `f64`
sampling parameters are never inspected by the program, only copied into the
request, so their carrier is an opaque type parameter `F`. -/
structure Options (F : Type) where
  no_stream : Bool
  model : String
  temperature : Option F
  top_p : Option F
  prompt : List String
deriving Repr, DecidableEq

/-- The request envelope of `model.rs`.  Modelled from the spec: wire shape
`{model, stream, messages, temperature?, top_p?}` (spec section 6). -/
structure Request (F : Type) where
  model : String
  stream : Bool
  messages : List Message
  temperature : Option F
  top_p : Option F
deriving Repr, DecidableEq

/-- The request envelope built by `complete_and_print` (main.rs lines
172-178): it carries the full transcript unmodified and the session-wide
options fixed at startup. -/
def mkRequest (opts : Options F) (msgs : List Message) : Request F :=
  ⟨opts.model, !opts.no_stream, msgs, opts.temperature, opts.top_p⟩

/-- `complete_and_print` (main.rs lines 170-199): builds the request from the
transcript and obtains the response; `respond` abstracts the transport and
the response handling (`do_stream_request` / `do_non_stream_request`). -/
def complete_and_print (opts : Options F)
    (respond : Request F → Except String Message) (msgs : List Message) :
    Request F × Except String Message :=
  let req := mkRequest opts msgs
  (req, respond req)

/-- One result of `rl.readline` in the interactive loop: a line, Ctrl-C,
Ctrl-D, or another readline error. -/
inductive ReadResult where
  | line (s : String)
  | interrupted
  | eof
  | readErr (e : String)
deriving Repr, DecidableEq

/-- Result of the interactive loop: the outgoing requests in the order they
were sent, the final transcript `self.messages`, and whether the loop ended
gracefully (`Ok`) or by a propagated error. -/
structure InteractiveOutcome (F : Type) where
  requests : List (Request F)
  messages : List Message
  result : Except String Unit
deriving Repr, DecidableEq

/-- The interactive loop of `run_interactive` (main.rs lines 128-162), folding
over the successive `readline` results.  An empty line is skipped; a
non-empty line is pushed as a user message, one request is issued via
`complete_and_print` (`respond` abstracts the transport and response
handling), and on success the response is pushed.  `Interrupted` and `Eof`
break the loop gracefully; other readline errors and request errors
propagate.  An exhausted input list stands for the session ending and is
treated like Eof. -/
def run_interactive_loop (opts : Options F)
    (respond : Request F → Except String Message) :
    List ReadResult → List Message → List (Request F) → InteractiveOutcome F
  | [], msgs, reqs => ⟨reqs, msgs, .ok ()⟩
  | .line s :: rest, msgs, reqs =>
    if s.isEmpty then run_interactive_loop opts respond rest msgs reqs
    else
      let msgs1 := msgs ++ [{ role := "user", content := s }]
      match complete_and_print opts respond msgs1 with
      | (req, .ok m) =>
        run_interactive_loop opts respond rest (msgs1 ++ [m]) (reqs ++ [req])
      | (req, .error e) => ⟨reqs ++ [req], msgs1, .error e⟩
  | .interrupted :: _, msgs, reqs => ⟨reqs, msgs, .ok ()⟩
  | .eof :: _, msgs, reqs => ⟨reqs, msgs, .ok ()⟩
  | .readErr e :: _, msgs, reqs => ⟨reqs, msgs, .error e⟩

/-- `run_interactive` (main.rs lines 117-166): the loop starting from the
empty transcript. -/
def run_interactive (opts : Options F)
    (respond : Request F → Except String Message)
    (inputs : List ReadResult) : InteractiveOutcome F :=
  run_interactive_loop opts respond inputs [] []

/-- An event on which the `while let` loop of `do_stream_request` keeps
looping without touching an exit path: `Open`, or a data frame that is not
the `[DONE]` sentinel, deserialises, and has a non-empty `choices` array. -/
def continuesLoop (parse : String → Option ResponseStreamMessage) :
    StreamEvent → Bool
  | .opened => true
  | .message d =>
    !(d == "[DONE]") &&
      (match parse d with
       | some m => !m.choices.isEmpty
       | none => false)
  | .transportError _ => false

/-- A streaming frame whose single choice carries only a content fragment. -/
def contentFrame (c : String) : ResponseStreamMessage := ⟨[⟨⟨none, some c⟩⟩]⟩

/-- Pure fold describing the accumulated content over a list of content
fragments: each fragment is stripped by the leading-whitespace rule against
the content accumulated so far, then appended. -/
def foldContent (acc : String) : List String → String
  | [] => acc
  | c :: cs => foldContent (acc ++ stripIf acc c) cs

/-- Remove one leading newline character, if present. -/
def dropLeadingNewline (s : String) : String :=
  match s.data with
  | '\n' :: rest => ⟨rest⟩
  | _ => s

/-- The content C1 literally claims: the concatenation of the fragments with
a leading newline stripped from the first fragment alone. -/
def claimedConcatC1 : List String → String
  | [] => ""
  | c :: cs => dropLeadingNewline c ++ String.join cs

/-- A concrete parse function used by witnesses: a few reserved payloads
behave specially, every other payload deserialises to a content-only frame
carrying the payload itself. -/
def parseEx (s : String) : Option ResponseStreamMessage :=
  if s = "bad" then none
  else if s = "noop" then some ⟨[⟨⟨none, none⟩⟩]⟩
  else if s = "empty" then some ⟨[]⟩
  else some (contentFrame s)

/-- Concrete options used by witnesses. -/
def optsEx : Options Nat := ⟨false, "gpt-3.5-turbo", none, none, []⟩

/-- A concrete transport oracle used by witnesses: every request succeeds
with a fixed assistant message. -/
def respondEx (_ : Request Nat) : Except String Message :=
  .ok ⟨"assistant", "ok"⟩

/-- Processing one loop-continuing event is a plain step: it neither exits
nor errors, only updates the accumulator and possibly prints one chunk. -/
theorem step_benign (parse : String → Option ResponseStreamMessage)
    (e : StreamEvent) (acc : Message) (out : List String)
    (he : continuesLoop parse e = true) :
    ∃ acc1 app, ∀ rest,
      processEvents parse (e :: rest) acc out =
        processEvents parse rest acc1 (out ++ app) := by
  cases e with
  | opened => exact ⟨acc, [], fun rest => by simp [processEvents]⟩
  | transportError err => simp [continuesLoop] at he
  | message d =>
    rw [continuesLoop] at he
    obtain ⟨hd0, hm⟩ := Bool.and_eq_true_iff.mp he
    have hd : ¬ d = "[DONE]" := by simpa using hd0
    cases hp : parse d with
    | none => rw [hp] at hm; simp at hm
    | some m =>
      rw [hp] at hm
      simp only [Bool.not_eq_true'] at hm
      cases hch : m.choices with
      | nil => rw [hch] at hm; simp at hm
      | cons ch tl =>
        cases hr : ch.delta.role with
        | none =>
          cases hc : ch.delta.content with
          | none =>
            exact ⟨acc, [], fun rest => by
              simp [processEvents, hd, hp, hch, hr, hc]⟩
          | some c =>
            exact ⟨{ acc with content := acc.content ++ stripIf acc.content c },
              [stripIf acc.content c], fun rest => by
              simp [processEvents, hd, hp, hch, hr, hc]⟩
        | some r =>
          cases hc : ch.delta.content with
          | none =>
            exact ⟨{ acc with role := acc.role ++ r }, [], fun rest => by
              simp [processEvents, hd, hp, hch, hr, hc]⟩
          | some c =>
            exact ⟨{ role := acc.role ++ r,
                     content := acc.content ++ stripIf acc.content c },
              [stripIf acc.content c], fun rest => by
              simp [processEvents, hd, hp, hch, hr, hc]⟩

/-- A prefix of loop-continuing events is consumed without exiting: the run
continues on the remaining events from some accumulator and trace. -/
theorem benign_prefix (parse : String → Option ResponseStreamMessage) :
    ∀ pre : List StreamEvent, (∀ e ∈ pre, continuesLoop parse e = true) →
    ∀ acc out, ∃ acc1 out1, ∀ rest,
      processEvents parse (pre ++ rest) acc out =
        processEvents parse rest acc1 out1 := by
  intro pre
  induction pre with
  | nil => exact fun _ acc out => ⟨acc, out, fun rest => by simp⟩
  | cons e pre ih =>
    intro h acc out
    obtain ⟨acc1, app, hstep⟩ := step_benign parse e acc out (h e (by simp))
    obtain ⟨acc2, out2, hrest⟩ :=
      ih (fun x hx => h x (by simp [hx])) acc1 (out ++ app)
    exact ⟨acc2, out2, fun rest => by rw [List.cons_append, hstep, hrest]⟩

/-- A run over loop-continuing events only succeeds with the accumulated
message; appending the `[DONE]` sentinel afterwards returns the same message
and prints exactly one more chunk, the trailing newline. -/
theorem benign_run (parse : String → Option ResponseStreamMessage) :
    ∀ evs : List StreamEvent, (∀ e ∈ evs, continuesLoop parse e = true) →
    ∀ acc out, ∃ m outs,
      processEvents parse evs acc out = ⟨out ++ outs, false, .ok m⟩ ∧
      processEvents parse (evs ++ [.message "[DONE]"]) acc out
        = ⟨out ++ outs ++ ["\n"], false, .ok m⟩ := by
  intro evs
  induction evs with
  | nil =>
    intro _ acc out
    exact ⟨acc, [], by simp [processEvents], by simp [processEvents]⟩
  | cons e evs ih =>
    intro h acc out
    obtain ⟨acc1, app, hstep⟩ := step_benign parse e acc out (h e (by simp))
    obtain ⟨m, outs, h1, h2⟩ :=
      ih (fun x hx => h x (by simp [hx])) acc1 (out ++ app)
    refine ⟨m, app ++ outs, ?_, ?_⟩
    · rw [hstep, h1]; simp
    · rw [List.cons_append, hstep, h2]; simp

/-- Running the reducer over content-only frames followed by `[DONE]`
computes exactly the pure fold `foldContent` on the carried fragments. -/
theorem content_run (parse : String → Option ResponseStreamMessage) :
    ∀ ps : List (String × String),
      (∀ p ∈ ps, p.1 ≠ "[DONE]" ∧ parse p.1 = some (contentFrame p.2)) →
      ∀ r a out,
        (processEvents parse
            (ps.map (fun q => StreamEvent.message q.1) ++ [.message "[DONE]"])
            ⟨r, a⟩ out).result = .ok ⟨r, foldContent a (ps.map Prod.snd)⟩ := by
  intro ps
  induction ps with
  | nil => intro _ r a out; simp [processEvents, foldContent]
  | cons p ps ih =>
    intro h r a out
    obtain ⟨hd, hp⟩ := h p (by simp)
    have hstep : processEvents parse
        ((p :: ps).map (fun q => StreamEvent.message q.1) ++ [.message "[DONE]"])
          ⟨r, a⟩ out
        = processEvents parse
            (ps.map (fun q => StreamEvent.message q.1) ++ [.message "[DONE]"])
            ⟨r, a ++ stripIf a p.2⟩ (out ++ [stripIf a p.2]) := by
      simp [processEvents, hd, hp, contentFrame]
    rw [hstep, ih (fun x hx => h x (by simp [hx])) r (a ++ stripIf a p.2) _]
    simp [foldContent]

/-- C1 (counterexample): the claim says the leading newline is stripped from
`c1` alone.  The code instead strips while the accumulated content is still
empty: with fragments `["", "\n hi"]` the first (empty) fragment leaves the
accumulator empty, so the second fragment is stripped of all its leading
whitespace and the reducer returns `"hi"`, whereas stripping a leading
newline from `c1` alone predicts `"\n hi"`. -/
theorem stream_first_fragment_only_strip_refuted :
    (do_stream_request parseEx
        [.message "", .message "\n hi", .message "[DONE]"]).result
      = .ok ⟨"", "hi"⟩
    ∧ claimedConcatC1 ["", "\n hi"] = "\n hi"
    ∧ ("hi" : String) ≠ "\n hi" := by
  refine ⟨by decide, by decide, by decide⟩

/-- C1 (amended): for content-only delta frames followed by `[DONE]`, the
returned content is the concatenation of the fragments where every fragment
arriving while the accumulated content is still empty and beginning with a
newline has all its leading whitespace stripped (and later fragments are
appended unchanged); the role stays empty. -/
theorem stream_content_concat_stripped
    (parse : String → Option ResponseStreamMessage)
    (ps : List (String × String))
    (h : ∀ p ∈ ps, p.1 ≠ "[DONE]" ∧ parse p.1 = some (contentFrame p.2)) :
    (do_stream_request parse
        (ps.map (fun q => StreamEvent.message q.1) ++ [.message "[DONE]"])).result
      = .ok ⟨"", foldContent "" (ps.map Prod.snd)⟩ :=
  content_run parse ps h "" "" []

theorem stream_content_concat_stripped_witness :
    (do_stream_request parseEx
        [.message "hello", .message "\nworld", .message "[DONE]"]).result
      = .ok ⟨"", "hello\nworld"⟩ :=
  (stream_content_concat_stripped parseEx
    [("hello", "hello"), ("\nworld", "\nworld")] (by decide)).trans (by decide)

/-- C2: a data frame that deserialises to a body with an empty `choices`
array makes the reducer fail — the `.unwrap()` at main.rs line 218 panics,
aborting the stream; no `Message` is returned, whatever events follow. -/
theorem stream_empty_choices_fails
    (parse : String → Option ResponseStreamMessage)
    (pre : List StreamEvent) (h : ∀ e ∈ pre, continuesLoop parse e = true)
    (d : String) (m : ResponseStreamMessage)
    (hd : d ≠ "[DONE]") (hp : parse d = some m) (hch : m.choices = [])
    (rest : List StreamEvent) :
    (do_stream_request parse (pre ++ .message d :: rest)).result
      = .error .panicked := by
  obtain ⟨acc1, out1, hpre⟩ := benign_prefix parse pre h Message.default []
  rw [do_stream_request, hpre]
  simp [processEvents, hd, hp, hch]

theorem stream_empty_choices_fails_witness :
    (do_stream_request parseEx
        [.opened, .message "x", .message "empty", .message "[DONE]"]).result
      = .error .panicked :=
  stream_empty_choices_fails parseEx [.opened, .message "x"] (by decide)
    "empty" ⟨[]⟩ (by decide) (by decide) rfl [.message "[DONE]"]

/-- C3: a data frame whose payload is invalid JSON (and is not `[DONE]`)
makes the reducer fail with the propagated `serde_json` error; no `Message`
is returned, whatever events follow. -/
theorem stream_invalid_json_fails
    (parse : String → Option ResponseStreamMessage)
    (pre : List StreamEvent) (h : ∀ e ∈ pre, continuesLoop parse e = true)
    (d : String) (hd : d ≠ "[DONE]") (hp : parse d = none)
    (rest : List StreamEvent) :
    (do_stream_request parse (pre ++ .message d :: rest)).result
      = .error .parseError := by
  obtain ⟨acc1, out1, hpre⟩ := benign_prefix parse pre h Message.default []
  rw [do_stream_request, hpre]
  simp [processEvents, hd, hp]

theorem stream_invalid_json_fails_witness :
    (do_stream_request parseEx
        [.opened, .message "x", .message "bad", .message "[DONE]"]).result
      = .error .parseError :=
  stream_invalid_json_fails parseEx [.opened, .message "x"] (by decide)
    "bad" (by decide) (by decide) [.message "[DONE]"]

/-- C4: a transport-error event makes the reducer call `es.close()` on the
event source and fail with a descriptive error; no (partial) `Message` is
returned. -/
theorem stream_transport_error_closes_and_fails
    (parse : String → Option ResponseStreamMessage)
    (pre : List StreamEvent) (h : ∀ e ∈ pre, continuesLoop parse e = true)
    (err : String) (rest : List StreamEvent) :
    (do_stream_request parse (pre ++ .transportError err :: rest)).result
        = .error (.transport err)
    ∧ (do_stream_request parse (pre ++ .transportError err :: rest)).closed
        = true := by
  obtain ⟨acc1, out1, hpre⟩ := benign_prefix parse pre h Message.default []
  rw [do_stream_request, hpre]
  simp [processEvents]

theorem stream_transport_error_closes_and_fails_witness :
    (do_stream_request parseEx
        [.opened, .message "x", .transportError "reset"]).result
      = .error (.transport "reset")
    ∧ (do_stream_request parseEx
        [.opened, .message "x", .transportError "reset"]).closed = true :=
  stream_transport_error_closes_and_fails parseEx [.opened, .message "x"]
    (by decide) "reset" []

/-- C5: when the very first event is the `[DONE]` sentinel, the reducer
terminates successfully at once — independently of the JSON parse function,
i.e. without decoding the sentinel as JSON — printing exactly the trailing
newline and returning the default message with empty role and content. -/
theorem stream_done_first_event_empty_message
    (parse : String → Option ResponseStreamMessage)
    (rest : List StreamEvent) :
    do_stream_request parse (.message "[DONE]" :: rest)
      = ⟨["\n"], false, .ok ⟨"", ""⟩⟩ := by
  simp [do_stream_request, processEvents, Message.default]

/-- C7: in the non-streaming path, a body whose first choice's content is
`"\nHello"` yields the message content `"Hello"` (leading newline stripped),
while `"Hello\nWorld"` is returned unchanged — only a leading newline is
special-cased. -/
theorem non_stream_leading_newline_strip :
    do_non_stream_request (some ⟨[⟨⟨"assistant", "\nHello"⟩⟩]⟩)
      = ⟨"Hello\n", .ok ⟨"assistant", "Hello"⟩⟩
    ∧ do_non_stream_request (some ⟨[⟨⟨"assistant", "Hello\nWorld"⟩⟩]⟩)
      = ⟨"Hello\nWorld\n", .ok ⟨"assistant", "Hello\nWorld"⟩⟩ := by
  refine ⟨by decide, by decide⟩

/-- C8: a well-formed delta frame carrying neither a role nor a content
fragment is a no-op: the reducer continues on the remaining events with the
accumulator and the printed trace unchanged. -/
theorem empty_delta_frame_noop
    (parse : String → Option ResponseStreamMessage)
    (d : String) (tl : List StreamChoice)
    (hd : d ≠ "[DONE]") (hp : parse d = some ⟨⟨⟨none, none⟩⟩ :: tl⟩)
    (rest : List StreamEvent) (acc : Message) (out : List String) :
    processEvents parse (.message d :: rest) acc out
      = processEvents parse rest acc out := by
  simp [processEvents, hd, hp]

theorem empty_delta_frame_noop_witness :
    processEvents parseEx [.message "noop", .message "[DONE]"]
        ⟨"", ""⟩ []
      = processEvents parseEx [.message "[DONE]"] ⟨"", ""⟩ [] :=
  empty_delta_frame_noop parseEx "noop" [] (by decide) (by decide)
    [.message "[DONE]"] ⟨"", ""⟩ []

/-- C9: if the event stream is exhausted without `[DONE]` and without a
transport error, the reducer returns the partially accumulated message as a
success; had `[DONE]` arrived, the only extra output would have been the
trailing newline — so that newline is not printed in the exhausted case. -/
theorem stream_exhausted_partial_success
    (parse : String → Option ResponseStreamMessage)
    (evs : List StreamEvent) (h : ∀ e ∈ evs, continuesLoop parse e = true) :
    ∃ m outs,
      do_stream_request parse evs = ⟨outs, false, .ok m⟩ ∧
      do_stream_request parse (evs ++ [.message "[DONE]"])
        = ⟨outs ++ ["\n"], false, .ok m⟩ := by
  obtain ⟨m, outs, h1, h2⟩ := benign_run parse evs h Message.default []
  exact ⟨m, outs, by simpa using h1, by simpa using h2⟩

theorem stream_exhausted_partial_success_witness :
    ∃ m outs,
      do_stream_request parseEx [.opened, .message "part"]
        = ⟨outs, false, .ok m⟩ ∧
      do_stream_request parseEx
          [.opened, .message "part", .message "[DONE]"]
        = ⟨outs ++ ["\n"], false, .ok m⟩ := by
  obtain ⟨m, outs, h1, h2⟩ :=
    stream_exhausted_partial_success parseEx [.opened, .message "part"]
      (by decide)
  exact ⟨m, outs, h1, by simpa using h2⟩

/-- C10: the non-streaming handler indexes `choices[0]` without a guard: a
successfully parsed body with an empty `choices` array panics (it does not
take the `?` error-return path), and a `Message` is returned only when
`choices` is non-empty. -/
theorem non_stream_nonempty_choices_required :
    (do_non_stream_request (some ⟨[]⟩)).result = .error .panicked
    ∧ ∀ body m, (do_non_stream_request body).result = .ok m →
        ∃ resp, body = some resp ∧ resp.choices ≠ [] := by
  refine ⟨by decide, ?_⟩
  intro body m hm
  cases body with
  | none => simp [do_non_stream_request] at hm
  | some resp =>
    cases hch : resp.choices with
    | nil => rw [do_non_stream_request, hch] at hm; simp at hm
    | cons ch tl => exact ⟨resp, rfl, by simp [hch]⟩

theorem non_stream_nonempty_choices_required_witness :
    ∃ resp, (some (⟨[⟨⟨"assistant", "hi"⟩⟩]⟩ : ResponseMessage)) = some resp
      ∧ resp.choices ≠ [] :=
  non_stream_nonempty_choices_required.2
    (some ⟨[⟨⟨"assistant", "hi"⟩⟩]⟩) ⟨"assistant", "hi"⟩ (by decide)

/-- Taking `2*(n+1)+1` elements of a list with two explicit heads keeps both
heads and takes `2*n+1` of the tail. -/
theorem take_two_cons {α : Type} (a b : α) (l : List α) (n : Nat) :
    (a :: b :: l).take (2*(n+1)+1) = a :: b :: l.take (2*n+1) := by
  have h : 2*(n+1)+1 = (2*n+1) + 1 + 1 := by omega
  rw [h, List.take_succ_cons, List.take_succ_cons]

/-- Invariant of the interactive loop over non-empty input lines when every
request succeeds with an assistant message: starting from transcript `t0`
and request log `r0`, the loop terminates gracefully having appended one
user/assistant pair per line, and every new request carries the transcript
prefix current at its send time. -/
theorem interactive_loop_lines {F : Type} (opts : Options F)
    (respond : Request F → Except String Message)
    (hok : ∀ req, ∃ m, respond req = .ok m ∧ m.role = "assistant") :
    ∀ lines : List String, (∀ s ∈ lines, s.isEmpty = false) →
    ∀ (t0 : List Message) (r0 : List (Request F)),
    ∃ (D : List Message) (R : List (Request F)),
      run_interactive_loop opts respond (lines.map ReadResult.line) t0 r0
        = ⟨r0 ++ R, t0 ++ D, .ok ()⟩
      ∧ D.length = 2 * lines.length
      ∧ R.length = lines.length
      ∧ (∀ i s, lines[i]? = some s → D[2*i]? = some ⟨"user", s⟩)
      ∧ (∀ i m, D[2*i+1]? = some m → m.role = "assistant")
      ∧ (∀ j r, R[j]? = some r → r = mkRequest opts (t0 ++ D.take (2*j+1))) := by
  intro lines
  induction lines with
  | nil =>
    intro _ t0 r0
    refine ⟨[], [], by simp [run_interactive_loop], by simp, by simp,
      ?_, ?_, ?_⟩ <;> intro i
    · intro s hi; simp at hi
    · intro m hi; simp at hi
    · intro r hi; simp at hi
  | cons s lines ih =>
    intro hne t0 r0
    have hs : s.isEmpty = false := hne s (by simp)
    obtain ⟨m, hm, hrole⟩ := hok (mkRequest opts (t0 ++ [⟨"user", s⟩]))
    obtain ⟨D, R, hrun, hlenD, hlenR, heven, hodd, hreq⟩ :=
      ih (fun x hx => hne x (by simp [hx]))
        ((t0 ++ [⟨"user", s⟩]) ++ [m])
        (r0 ++ [mkRequest opts (t0 ++ [⟨"user", s⟩])])
    have hstep :
        run_interactive_loop opts respond
            ((s :: lines).map ReadResult.line) t0 r0
          = run_interactive_loop opts respond (lines.map ReadResult.line)
              ((t0 ++ [⟨"user", s⟩]) ++ [m])
              (r0 ++ [mkRequest opts (t0 ++ [⟨"user", s⟩])]) := by
      simp [run_interactive_loop, complete_and_print, hs, hm]
    refine ⟨⟨"user", s⟩ :: m :: D, mkRequest opts (t0 ++ [⟨"user", s⟩]) :: R,
      ?_, ?_, ?_, ?_, ?_, ?_⟩
    · rw [hstep, hrun]
      simp [List.append_assoc]
    · simp [hlenD]; omega
    · simp [hlenR]
    · intro i t hi
      cases i with
      | zero => simp at hi; simp [hi]
      | succ i =>
        have h2 : 2*(i+1) = 2*i + 1 + 1 := by omega
        rw [h2, List.getElem?_cons_succ, List.getElem?_cons_succ]
        exact heven i t (by simpa using hi)
    · intro i mm hi
      cases i with
      | zero =>
        simp at hi
        rw [← hi]; exact hrole
      | succ i =>
        have h2 : 2*(i+1)+1 = (2*i+1) + 1 + 1 := by omega
        rw [h2, List.getElem?_cons_succ, List.getElem?_cons_succ] at hi
        exact hodd i mm hi
    · intro j r hj
      cases j with
      | zero =>
        simp at hj
        simp [← hj, mkRequest]
      | succ j =>
        rw [List.getElem?_cons_succ] at hj
        rw [hreq j r hj, take_two_cons]
        simp [List.append_assoc]

/-- C6: in interactive mode, after `k` successful turns (every input line
non-empty, every request answered with an assistant message) the transcript
contains exactly `2k` messages alternating user/assistant in chronological
order — the `i`-th user message carries the `i`-th input line — and each of
the `k` outgoing request envelopes carries, unmodified and oldest first, the
transcript prefix current when it was sent: the `j`-th request holds the
first `2j+1` messages (all prior `2j` plus the just-appended user one). -/
theorem interactive_transcript_growth {F : Type} (opts : Options F)
    (respond : Request F → Except String Message)
    (hok : ∀ req, ∃ m, respond req = .ok m ∧ m.role = "assistant")
    (lines : List String) (hne : ∀ s ∈ lines, s.isEmpty = false) :
    ∃ o, run_interactive opts respond (lines.map ReadResult.line) = o
      ∧ o.result = .ok ()
      ∧ o.messages.length = 2 * lines.length
      ∧ (∀ i s, lines[i]? = some s → o.messages[2*i]? = some ⟨"user", s⟩)
      ∧ (∀ i m, o.messages[2*i+1]? = some m → m.role = "assistant")
      ∧ o.requests.length = lines.length
      ∧ (∀ j r, o.requests[j]? = some r →
          r = mkRequest opts (o.messages.take (2*j+1))) := by
  obtain ⟨D, R, hrun, hlenD, hlenR, heven, hodd, hreq⟩ :=
    interactive_loop_lines opts respond hok lines hne [] []
  refine ⟨⟨R, D, .ok ()⟩, by simpa [run_interactive] using hrun,
    rfl, hlenD, heven, hodd, hlenR, ?_⟩
  intro j r hj
  simpa using hreq j r hj

theorem interactive_transcript_growth_witness :
    ∃ o, run_interactive optsEx respondEx [ReadResult.line "hi"] = o
      ∧ o.result = .ok ()
      ∧ o.messages.length = 2 * ["hi"].length
      ∧ (∀ i s, ["hi"][i]? = some s → o.messages[2*i]? = some ⟨"user", s⟩)
      ∧ (∀ i m, o.messages[2*i+1]? = some m → m.role = "assistant")
      ∧ o.requests.length = ["hi"].length
      ∧ (∀ j r, o.requests[j]? = some r →
          r = mkRequest optsEx (o.messages.take (2*j+1))) :=
  interactive_transcript_growth optsEx respondEx
    (fun _ => ⟨⟨"assistant", "ok"⟩, rfl, rfl⟩) ["hi"] (by decide)

end HeyGpt
